import Mathlib

/-!
Shallow embedding of the provenance/replay core of the `agentlab` repository:
canonical JSON encoding and hashing (`agentlab_core/canonical_json.py`,
`agentlab_core/hashing.py`), the content-addressed artifact store
(`agentlab_core/artifact_store.py`), the hash-chained event recorder
(`agentlab_runner/event_recorder.py`), the hook causal validator
(`agentlab_runner/hook_collector.py`), checkpoint save/restore
(`agentlab_runner/checkpoints.py`), the replay index
(`agentlab_runner/replay_engine.py`) and experiment resolution
(`agentlab_runner/experiment_resolver.py`).

JSON-representable Python values are modelled by `Json`; `dict` objects are
association lists with unique keys (a Python dict cannot hold duplicates).
SHA-256 itself is treated as an opaque function parameter `sha`; everything
the code does around it (canonical serialization, digest parsing, storage
layout, chaining) is translated from the source.
-/

/-- JSON-representable value (the payload of `json.loads`/`json.dumps`).
Numbers are modelled as integers (every number the modelled code stores or
compares is an integer). -/
inductive Json where
  | null : Json
  | bool (b : Bool) : Json
  | num (n : Int) : Json
  | str (s : String) : Json
  | arr (xs : List Json) : Json
  | obj (fields : List (String × Json)) : Json

mutual
/-- Python `==` on JSON values (used where the source compares values). -/
def beqJson : Json → Json → Bool
  | Json.null, Json.null => true
  | Json.bool a, Json.bool b => a == b
  | Json.num a, Json.num b => a == b
  | Json.str a, Json.str b => a == b
  | Json.arr xs, Json.arr ys => beqJsonList xs ys
  | Json.obj fs, Json.obj gs => beqJsonFields fs gs
  | _, _ => false

/-- Elementwise `==` on JSON arrays. -/
def beqJsonList : List Json → List Json → Bool
  | [], [] => true
  | x :: xs, y :: ys => beqJson x y && beqJsonList xs ys
  | _, _ => false

/-- Fieldwise `==` on JSON objects (the modelled dicts have unique keys and
a fixed insertion order, so positional comparison suffices here). -/
def beqJsonFields : List (String × Json) → List (String × Json) → Bool
  | [], [] => true
  | kv :: xs, lw :: ys => kv.1 == lw.1 && beqJson kv.2 lw.2 && beqJsonFields xs ys
  | _, _ => false
end

/-- First binding of a key in an association list (Python `dict` lookup). -/
def getKey {α : Type} : List (String × α) → String → Option α
  | [], _ => none
  | kv :: rest, k => if kv.1 = k then some kv.2 else getKey rest k

/-- `d[k] = v` on a Python dict: replace the existing binding in place, or
append a new one (dicts keep insertion order). -/
def setKey {α : Type} : List (String × α) → String → α → List (String × α)
  | [], k, v => [(k, v)]
  | kv :: rest, k, v => if kv.1 = k then (k, v) :: rest else kv :: setKey rest k v

/-- `d.pop(k, None)`: remove the binding for `k`. -/
def eraseKey {α : Type} : List (String × α) → String → List (String × α)
  | [], _ => []
  | kv :: rest, k => if kv.1 = k then eraseKey rest k else kv :: eraseKey rest k

/-- `k in d` on a Python dict. -/
def hasKey {α : Type} (l : List (String × α)) (k : String) : Bool :=
  (getKey l k).isSome

/-- `obj.get(k)` on a JSON value known to be a dict; `none` for non-dicts. -/
def jget : Json → String → Option Json
  | Json.obj fs, k => getKey fs k
  | _, _ => none

/-- `obj.get(k, default)`. -/
def jgetD (o : Json) (k : String) (d : Json) : Json :=
  match jget o k with
  | some v => v
  | none => d

/-- `obj[k] = v` on a JSON dict; non-dicts are returned unchanged (item
assignment on a non-dict raises in Python and never occurs in the modelled
scenarios). -/
def jset : Json → String → Json → Json
  | Json.obj fs, k, v => Json.obj (setKey fs k v)
  | o, _, _ => o

/-- `k in o` for a JSON dict. -/
def jhas (o : Json) (k : String) : Bool :=
  match o with
  | Json.obj fs => hasKey fs k
  | _ => false

def isObj : Json → Bool
  | Json.obj _ => true
  | _ => false

/-- Python truthiness of a JSON value (`bool(x)`). -/
def pyTruthy : Json → Bool
  | Json.null => false
  | Json.bool b => b
  | Json.num n => n != 0
  | Json.str s => s != ""
  | Json.arr xs => !xs.isEmpty
  | Json.obj fs => !fs.isEmpty

/-- `a or b` in Python over an optional JSON value (`exp.get(k) or default`). -/
def pyOr (o : Option Json) (d : Json) : Json :=
  match o with
  | some v => if pyTruthy v then v else d
  | none => d

/-! ## Canonical JSON encoding (`agentlab_core/canonical_json.py`)

`canonical_dumps` is `json.dumps(obj, sort_keys=True, separators=(",", ":"),
ensure_ascii=True)`: sorted object keys, no insignificant whitespace,
ASCII-only output with `\uXXXX` escapes. -/

/-- Lowercase hex digit. -/
def hexDigit (n : Nat) : Char :=
  if n < 10 then Char.ofNat (48 + n) else Char.ofNat (87 + n)

/-- Four-digit lowercase hex, as in a JSON `\uXXXX` escape. -/
def hex4 (n : Nat) : String :=
  String.mk [hexDigit (n / 4096 % 16), hexDigit (n / 256 % 16),
             hexDigit (n / 16 % 16), hexDigit (n % 16)]

/-- Escape one character the way `json.dumps(..., ensure_ascii=True)` does. -/
def escChar (c : Char) : String :=
  if c = '"' then "\\\""
  else if c = '\\' then "\\\\"
  else if c = '\n' then "\\n"
  else if c = '\t' then "\\t"
  else if c = '\r' then "\\r"
  else if c.toNat = 8 then "\\b"
  else if c.toNat = 12 then "\\f"
  else if c.toNat < 32 then "\\u" ++ hex4 c.toNat
  else if c.toNat < 127 then String.singleton c
  else if c.toNat ≤ 65535 then "\\u" ++ hex4 c.toNat
  else
    let v := c.toNat - 65536
    "\\u" ++ hex4 (55296 + v / 1024) ++ "\\u" ++ hex4 (56320 + v % 1024)

/-- JSON string literal with quotes. -/
def encString (s : String) : String :=
  "\"" ++ String.join (s.data.map escChar) ++ "\""

/-- Code-point lexicographic comparison of strings (Python `str` ordering,
used by `sort_keys=True`). -/
def charsLt : List Char → List Char → Bool
  | [], [] => false
  | [], _ :: _ => true
  | _ :: _, [] => false
  | a :: as, b :: bs =>
    if a.toNat < b.toNat then true
    else if b.toNat < a.toNat then false
    else charsLt as bs

def strLt (a b : String) : Bool :=
  charsLt a.data b.data

/-- Stable insertion of an element into a key-sorted list. -/
def insertSortedKey (x : String × String) : List (String × String) → List (String × String)
  | [] => [x]
  | y :: ys => if strLt y.1 x.1 then y :: insertSortedKey x ys else x :: y :: ys

/-- Sort serialized fields by key (`sort_keys=True`; dict keys are unique so
stability is irrelevant). -/
def sortFields : List (String × String) → List (String × String)
  | [] => []
  | x :: xs => insertSortedKey x (sortFields xs)

mutual
/-- `canonical_dumps` from `agentlab_core/canonical_json.py`. -/
def canonical_dumps : Json → String
  | Json.null => "null"
  | Json.bool b => if b then "true" else "false"
  | Json.num n => toString n
  | Json.str s => encString s
  | Json.arr xs => "[" ++ String.intercalate "," (canonList xs) ++ "]"
  | Json.obj fs =>
    let parts := (sortFields (canonFields fs)).map (fun kv => encString kv.1 ++ ":" ++ kv.2)
    "\x7b" ++ String.intercalate "," parts ++ "\x7d"

def canonList : List Json → List String
  | [] => []
  | x :: xs => canonical_dumps x :: canonList xs

def canonFields : List (String × Json) → List (String × String)
  | [] => []
  | kv :: rest => (kv.1, canonical_dumps kv.2) :: canonFields rest
end

/-! ## Bytes and hashing (`agentlab_core/hashing.py`)

Byte strings are either literal bytes or the bytes of a gzipped tar archive
of named regular files (`CheckpointManager._tar_path` archives a directory
with `arcname="."`, so member names are `./`-relative).  SHA-256 is an opaque
parameter `sha : Bytes → String` standing for
`"sha256:" + hashlib.sha256(data).hexdigest()`. -/

inductive Bytes where
  | raw (bs : List UInt8) : Bytes
  | tarGz (entries : List (String × String)) : Bytes
deriving DecidableEq

/-- UTF-8 encoding of one character. -/
def charUtf8 (c : Char) : List UInt8 :=
  let v := c.toNat
  if v < 128 then [UInt8.ofNat v]
  else if v < 2048 then [UInt8.ofNat (192 + v / 64), UInt8.ofNat (128 + v % 64)]
  else if v < 65536 then
    [UInt8.ofNat (224 + v / 4096), UInt8.ofNat (128 + v / 64 % 64),
     UInt8.ofNat (128 + v % 64)]
  else
    [UInt8.ofNat (240 + v / 262144), UInt8.ofNat (128 + v / 4096 % 64),
     UInt8.ofNat (128 + v / 64 % 64), UInt8.ofNat (128 + v % 64)]

/-- `s.encode("utf-8")`. -/
def strUtf8 (s : String) : Bytes :=
  Bytes.raw (s.data.flatMap charUtf8)

/-- Python exceptions raised by the modelled code. -/
inductive PyErr where
  | valueError (msg : String) : PyErr
  | fileNotFound (path : String) : PyErr
  | keyError (msg : String) : PyErr
  | typeError : PyErr
deriving DecidableEq

/-! ### String primitives

Structurally recursive re-implementations of the string operations the
Python code uses (`startswith`, `endswith`, `split`, slicing, `int(...)`),
over the character list of the string. -/

/-- Is `p` a prefix of `s` (elementwise)? -/
def isPrefixList (p s : List Char) : Bool :=
  match p, s with
  | [], _ => true
  | _ :: _, [] => false
  | a :: as, b :: bs => a == b && isPrefixList as bs

/-- Python `s.startswith(p)`. -/
def strStartsWith (s p : String) : Bool :=
  isPrefixList p.data s.data

/-- Python `s.endswith(p)`. -/
def strEndsWith (s p : String) : Bool :=
  isPrefixList p.data.reverse s.data.reverse

/-- Python `s[n:]` (character slicing). -/
def strDrop (s : String) (n : Nat) : String :=
  String.mk (s.data.drop n)

/-- Split a character list on a separator character. -/
def splitChar (c : Char) : List Char → List (List Char)
  | [] => [[]]
  | x :: xs =>
    match splitChar c xs with
    | [] => [[]]
    | g :: gs => if x = c then [] :: g :: gs else (x :: g) :: gs

/-- Everything after the first occurrence of `c` (empty when absent). -/
def afterFirst (c : Char) : List Char → List Char
  | [] => []
  | x :: xs => if x = c then xs else afterFirst c xs

/-- Join character groups with a separator character. -/
def joinChar (c : Char) : List (List Char) → List Char
  | [] => []
  | [g] => g
  | g :: gs => g ++ c :: joinChar c gs

/-- `digest.split(":", 1)[1]`: everything after the first colon. -/
def afterColon (s : String) : String :=
  String.mk (afterFirst ':' s.data)

/-- `ref.split("/")[-1]`. -/
def lastSlashComp (s : String) : String :=
  String.mk ((splitChar '/' s.data).getLastD [])

/-- `os.path.dirname` (drop the last `/`-component). -/
def dirname (p : String) : String :=
  String.mk (joinChar '/' (splitChar '/' p.data).dropLast)

/-- The `/`-separated segments of a path. -/
def pathSegs (p : String) : List String :=
  (splitChar '/' p.data).map String.mk

/-- Decimal digits to a number (`none` when empty or non-digit). -/
def natFromDigits (ds : List Char) : Option Nat :=
  if ds.isEmpty then none
  else
    ds.foldl
      (fun acc c =>
        match acc with
        | none => none
        | some n =>
          if 48 ≤ c.toNat && c.toNat ≤ 57 then some (n * 10 + (c.toNat - 48))
          else none)
      (some 0)

/-- Python `int(s)` on a plain decimal literal (whitespace and underscore
forms are out of the modelled inputs). -/
def parseInt (s : String) : Option Int :=
  match s.data with
  | '-' :: ds => (natFromDigits ds).map (fun n => -(n : Int))
  | '+' :: ds => (natFromDigits ds).map (fun n => (n : Int))
  | ds => (natFromDigits ds).map (fun n => (n : Int))

/-! ## POSIX path model

`os.path.join`, `os.path.normpath` and `os.path.realpath` as used by
`checkpoints.py` and `experiment_resolver.py`.  Paths in the modelled
scenarios are absolute and the filesystems contain no symlinks, so
`realpath` coincides with `normpath`. -/

/-- `os.path.isabs`. -/
def isAbs (p : String) : Bool :=
  strStartsWith p "/"

/-- `os.path.join(a, b)` for one extra component: an absolute `b` replaces
`a`, otherwise the two are joined with a separator. -/
def joinPath (a b : String) : String :=
  if strStartsWith b "/" then b
  else if a = "" then b
  else if strEndsWith a "/" then a ++ b
  else a ++ "/" ++ b

/-- Segment normalization used by `os.path.normpath`: drop empty and `.`
segments, resolve `..` against the stack (clamping at the root for absolute
paths, keeping leading `..` for relative ones). -/
def normStack (absq : Bool) : List String → List String → List String
  | stack, [] => stack.reverse
  | stack, seg :: rest =>
    if seg = "" || seg = "." then normStack absq stack rest
    else if seg = ".." then
      match stack with
      | [] => if absq then normStack absq [] rest else normStack absq [".."] rest
      | top :: stk =>
        if top = ".." then normStack absq (".." :: top :: stk) rest
        else normStack absq stk rest
    else normStack absq (seg :: stack) rest

/-- `os.path.normpath` (POSIX; the double-slash-root special case is not
modelled as it never arises in the scenarios). -/
def normpathStr (p : String) : String :=
  let absq := strStartsWith p "/"
  let segs := normStack absq [] (pathSegs p)
  if absq then (if segs.isEmpty then "/" else "/" ++ String.intercalate "/" segs)
  else (if segs.isEmpty then "." else String.intercalate "/" segs)

/-- `os.path.realpath` on an absolute path in a symlink-free tree. -/
def realpath (p : String) : String :=
  normpathStr p

/-- The resolved path `p` lies inside directory `dir` (the property the spec
asks the extraction guard to enforce: the member stays under the target). -/
def isWithinDir (dir p : String) : Bool :=
  p == dir || strStartsWith p (dir ++ "/")

/-! ## Content-addressed artifact store (`agentlab_core/artifact_store.py`)

The store keeps blobs under `<root>/sha256/<hex>`; its on-disk state is the
map from those full paths to blob contents.  Each write operation also
returns the trace of filesystem operations it performed, so that the
atomic-write contract can be stated. -/

structure ArtifactStore where
  root : String
  blobs : List (String × Bytes)

/-- A filesystem action performed by a store write. -/
inductive FsOp where
  | makedirs (path : String) : FsOp
  | write (path : String) (data : Bytes) : FsOp
  | replace (src dst : String) : FsOp
  | copyfile (src dst : String) : FsOp
deriving DecidableEq

/-- `ArtifactStore._path_for_hash`. -/
def path_for_hash (st : ArtifactStore) (hex : String) : String :=
  st.root ++ "/sha256/" ++ hex

/-- The `artifact://sha256/<hex>` ref string returned by the put operations. -/
def refFor (hex : String) : String :=
  "artifact://sha256/" ++ hex

/-- `ArtifactStore.put_bytes`: hash, then write `<path>.tmp` and
`os.replace` it into place unless the destination already exists.
Returns the new store state, the ref, and the filesystem trace. -/
def put_bytes (sha : Bytes → String) (st : ArtifactStore) (data : Bytes) :
    ArtifactStore × String × List FsOp :=
  let hex := afterColon (sha data)
  let path := path_for_hash st hex
  if (getKey st.blobs path).isSome then
    (st, refFor hex, [FsOp.makedirs (dirname path)])
  else
    ({ st with blobs := setKey st.blobs path data }, refFor hex,
     [FsOp.makedirs (dirname path), FsOp.write (path ++ ".tmp") data,
      FsOp.replace (path ++ ".tmp") path])

/-- `ArtifactStore.put_file`: hash the file contents, then
`shutil.copyfile` straight onto the destination unless it already exists.
`content` models the bytes of the file at `srcPath`. -/
def put_file (sha : Bytes → String) (st : ArtifactStore) (srcPath : String)
    (content : Bytes) : ArtifactStore × String × List FsOp :=
  let hex := afterColon (sha content)
  let destPath := path_for_hash st hex
  if (getKey st.blobs destPath).isSome then
    (st, refFor hex, [FsOp.makedirs (dirname destPath)])
  else
    ({ st with blobs := setKey st.blobs destPath content }, refFor hex,
     [FsOp.makedirs (dirname destPath), FsOp.copyfile srcPath destPath])

/-- `ArtifactStore.get_bytes`: reject refs that do not start with
`artifact://sha256/` with `ValueError`, then open the blob file (raising
`FileNotFoundError` when it does not exist). -/
def get_bytes (st : ArtifactStore) (ref : String) : Except PyErr Bytes :=
  if !(strStartsWith ref "artifact://sha256/") then
    Except.error (PyErr.valueError "Invalid artifact ref")
  else
    let hex := lastSlashComp ref
    let path := path_for_hash st hex
    match getKey st.blobs path with
    | some b => Except.ok b
    | none => Except.error (PyErr.fileNotFound path)

/-- Does this filesystem action write file contents at `dest`? -/
def writesBlobTo (op : FsOp) (dest : String) : Bool :=
  match op with
  | FsOp.write p _ => p == dest
  | FsOp.replace _ q => q == dest
  | FsOp.copyfile _ q => q == dest
  | FsOp.makedirs _ => false

/-- Is this action a rename landing on `dest`? -/
def isRenameInto (op : FsOp) (dest : String) : Bool :=
  match op with
  | FsOp.replace _ q => q == dest
  | _ => false

/-- A write trace is atomic for `dest` when the only operation that makes
contents appear at `dest` is a rename (so a crash mid-write never leaves a
partially written blob visible under its final name). -/
def atomicTraceB (tr : List FsOp) (dest : String) : Bool :=
  tr.all (fun op => !(writesBlobTo op dest) || isRenameInto op dest)

/-! ## Hash-chained event recorder (`agentlab_runner/event_recorder.py`) -/

def GENESIS_HASH : String :=
  "sha256:0000000000000000000000000000000000000000000000000000000000000000"

/-- `_hash_event_without_self`: drop `hashchain.self` from a (deep copy of
the) event, canonicalize, and hash the UTF-8 bytes. -/
def hash_event_without_self (sha : Bytes → String) (event : Json) : String :=
  let copy :=
    match jget event "hashchain" with
    | some (Json.obj hc) => jset event "hashchain" (Json.obj (eraseKey hc "self"))
    | _ => event
  sha (strUtf8 (canonical_dumps copy))

/-- Recorder state: the running `prev` hash, the artifact store it writes
payloads into, and the JSONL lines appended to the events file. -/
structure RecState where
  prev_hash : String
  store : ArtifactStore
  lines : List String

/-- A fresh `EventRecorder` (its constructor sets `prev_hash = GENESIS_HASH`
and opens the events file for append). -/
def initRecorder (store : ArtifactStore) : RecState :=
  { prev_hash := GENESIS_HASH, store := store, lines := [] }

def defaultRedaction : Json :=
  Json.obj [("applied", Json.bool false), ("mode", Json.str "store")]

/-- Set `obj["hashchain"]["self"]`. -/
def setHashchainSelf (o : Json) (v : String) : Json :=
  match jget o "hashchain" with
  | some (Json.obj hc) => jset o "hashchain" (Json.obj (setKey hc "self" (Json.str v)))
  | _ => o

/-- `EventRecorder.record`.  The schema-validation branch is a no-op here:
`validate_schema` defaults to `False` and the registry capability is out of
the modelled core (spec section 1). -/
def record (sha : Bytes → String) (st : RecState) (event : Json)
    (payload_bytes : Option Bytes) (redaction : Option Json) :
    RecState × Json :=
  let pr :=
    match payload_bytes with
    | none => (st.store, event)
    | some p =>
      let r := put_bytes sha st.store p
      (r.1, jset event "payload_ref" (Json.str r.2.1))
  let store1 := pr.1
  let obj1 := pr.2
  let obj2 :=
    if jhas obj1 "redaction" then obj1
    else jset obj1 "redaction"
      (match redaction with
       | some r => if pyTruthy r then r else defaultRedaction
       | none => defaultRedaction)
  let obj3 := jset obj2 "hashchain"
    (Json.obj [("prev", Json.str st.prev_hash), ("self", Json.str "")])
  let selfHash := hash_event_without_self sha obj3
  let obj4 := setHashchainSelf obj3 selfHash
  ({ prev_hash := selfHash, store := store1,
     lines := st.lines ++ [canonical_dumps obj4] }, obj4)

/-- One caller-supplied `record` invocation: the event plus the optional
`payload_bytes` and `redaction` arguments. -/
def RecInput : Type :=
  Json × Option Bytes × Option Json

/-- Successive `record` calls on one recorder instance, collecting the
returned (stored) events in order. -/
def recordAll (sha : Bytes → String) : RecState → List RecInput → RecState × List Json
  | st, [] => (st, [])
  | st, inp :: rest =>
    let r := record sha st inp.1 inp.2.1 inp.2.2
    let rr := recordAll sha r.1 rest
    (rr.1, r.2 :: rr.2)

/-- `event["hashchain"]["prev"]` of a stored event. -/
def prevOf (e : Json) : Option Json :=
  (jget e "hashchain").bind (fun hc => jget hc "prev")

/-- `event["hashchain"]["self"]` of a stored event. -/
def selfOf (e : Json) : Option Json :=
  (jget e "hashchain").bind (fun hc => jget hc "self")

/-! ## Hook causal validator (`agentlab_runner/hook_collector.py`)

`HookCollector.collect` reads one JSON document per line.  The embedding
takes the already-parsed line sequence (`List Json`); the schema registry is
an opaque capability (spec section 1) modelled as a predicate
`schemaOk : Json → Bool`, and the harness manifest is the underlying JSON
document of `HarnessManifest`. -/

/-- An integer-valued field (`obj.get(k)` when the value is an int; absent,
`null`, and non-integer values give `none`; the modelled streams carry
integer or absent `seq`/`step_index` fields, as the schema demands). -/
def getInt (o : Json) (k : String) : Option Int :=
  match jget o k with
  | some (Json.num n) => some n
  | _ => none

/-- `obj.get(k) is None` in Python: the key is absent or its value is null. -/
def fieldIsNone (o : Json) (k : String) : Bool :=
  match jget o k with
  | none => true
  | some Json.null => true
  | some _ => false

/-- `HarnessManifest.integration_level` (`data.get("integration_level",
"cli_basic")`). -/
def manifest_integration_level (m : Json) : Json :=
  jgetD m "integration_level" (Json.str "cli_basic")

/-- `HarnessManifest.step_semantics` (`(data.get("step") or {}).get("semantics", "")`). -/
def manifest_step_semantics (m : Json) : Json :=
  jgetD (pyOr (jget m "step") (Json.obj [])) "semantics" (Json.str "")

/-- `HarnessManifest.hooks_schema_version` (`(data.get("hooks") or {}).get("schema_version", "")`). -/
def manifest_hooks_schema_version (m : Json) : Json :=
  jgetD (pyOr (jget m "hooks") (Json.obj [])) "schema_version" (Json.str "")

/-- The `expected` dict of `HookCollector._validate_header`, in insertion
order. -/
def expectedHeader (m : Json) : List (String × Json) :=
  [("hooks_schema_version", manifest_hooks_schema_version m),
   ("step_semantics", manifest_step_semantics m),
   ("integration_level", manifest_integration_level m)]

/-- `HookCollector._validate_header`: each expected key that is present in
the header must equal the manifest-derived value; the first mismatching key
is reported. -/
def validate_header (header m : Json) : Except String Unit :=
  match (expectedHeader m).find?
      (fun kv => jhas header kv.1 && !beqJson (jgetD header kv.1 Json.null) kv.2) with
  | some kv => Except.error kv.1
  | none => Except.ok ()

/-- Validator state (`last_seq`, `seen_step`, `current_step`,
`pending_control_ack`, `stop_observed`, `turn_count`, accepted events). -/
structure HState where
  lastSeq : Option Int
  seenStep : Bool
  currentStep : Option Int
  pendingAck : Option Int
  stopObserved : Bool
  turnCount : Nat
  events : List Json

def initHState : HState :=
  { lastSeq := none, seenStep := false, currentStep := none,
    pendingAck := none, stopObserved := false, turnCount := 0, events := [] }

/-- A rejection raised while processing one event (the line number is
attached by the caller, as `HookValidationError` carries `line_num`). -/
inductive HookErrCore where
  | headerMismatch (key : String) : HookErrCore
  | schemaFailed : HookErrCore
  | seqTypeError : HookErrCore
  | seqNotMonotonic (prev cur : Int) : HookErrCore
  | missingAckBeforeStart (pending : Int) : HookErrCore
  | stepIndexIncrement (expected : Int) (got : Option Int) : HookErrCore
  | stopViolated : HookErrCore
  | stepEndMismatch (current got : Option Int) : HookErrCore
  | ackMismatch (expected got : Option Int) : HookErrCore
  | missingStepIndex : HookErrCore
deriving DecidableEq

/-- A rejection of the whole stream: either at a 1-based line, or the
end-of-stream missing-`control_ack` check. -/
inductive HookErr where
  | atLine (line : Nat) (e : HookErrCore) : HookErr
  | missingAckAtEnd (pending : Int) : HookErr
deriving DecidableEq

/-- `event_type` of a parsed line, when it is a string. -/
def eventTypeOf (o : Json) : Option String :=
  match jget o "event_type" with
  | some (Json.str t) => some t
  | _ => none

/-- The seq-monotonicity block: check `seq` against `last_seq`, then record
the new `last_seq`.  Comparing a missing `seq` against a previous integer is
a `TypeError` in Python. -/
def checkSeq (o : Json) (st : HState) : Except HookErrCore HState :=
  let seqO := getInt o "seq"
  match st.lastSeq with
  | none => Except.ok { st with lastSeq := seqO }
  | some l =>
    match seqO with
    | none => Except.error HookErrCore.seqTypeError
    | some s =>
      if s ≤ l then Except.error (HookErrCore.seqNotMonotonic l s)
      else Except.ok { st with lastSeq := some s }

/-- The `agent_step_start` block. -/
def stepStart (o : Json) (st : HState) : Except HookErrCore HState :=
  if eventTypeOf o ≠ some "agent_step_start" then Except.ok st
  else
    let st := { st with seenStep := true }
    match st.pendingAck with
    | some p => Except.error (HookErrCore.missingAckBeforeStart p)
    | none =>
      let si := getInt o "step_index"
      match st.currentStep with
      | none =>
        let st := { st with currentStep := si }
        if st.stopObserved then Except.error HookErrCore.stopViolated
        else Except.ok st
      | some c =>
        if si ≠ some (c + 1) then
          Except.error (HookErrCore.stepIndexIncrement (c + 1) si)
        else
          let st := { st with currentStep := si }
          if st.stopObserved then Except.error HookErrCore.stopViolated
          else Except.ok st

/-- The `agent_step_end` block. -/
def stepEnd (o : Json) (st : HState) : Except HookErrCore HState :=
  if eventTypeOf o ≠ some "agent_step_end" then Except.ok st
  else
    let st := { st with seenStep := true }
    let si := getInt o "step_index"
    match st.currentStep with
    | none => Except.error (HookErrCore.stepEndMismatch none si)
    | some c =>
      if si ≠ some c then Except.error (HookErrCore.stepEndMismatch (some c) si)
      else Except.ok { st with pendingAck := si }

/-- The `control_ack` block. -/
def ctrlAck (o : Json) (st : HState) : Except HookErrCore HState :=
  if eventTypeOf o ≠ some "control_ack" then Except.ok st
  else
    let si := getInt o "step_index"
    match st.pendingAck with
    | none => Except.error (HookErrCore.ackMismatch none si)
    | some p =>
      if si ≠ some p then Except.error (HookErrCore.ackMismatch (some p) si)
      else
        let st := { st with pendingAck := none }
        match jget o "action_observed" with
        | some (Json.str "stop") => Except.ok { st with stopObserved := true }
        | _ => Except.ok st

/-- The turn counter and the causal `step_index`-presence check, then the
append to the accepted list. -/
def tailChecks (o : Json) (st : HState) : Except HookErrCore HState :=
  let st :=
    if eventTypeOf o = some "model_call_end" then { st with turnCount := st.turnCount + 1 }
    else st
  let causal :=
    match eventTypeOf o with
    | some "model_call_end" => true
    | some "tool_call_end" => true
    | some "error" => true
    | _ => false
  if st.seenStep && causal && fieldIsNone o "step_index" then
    Except.error HookErrCore.missingStepIndex
  else
    Except.ok { st with events := st.events ++ [o] }

/-- Processing of one parsed line of the hook stream, in source order:
header short-circuit, schema validation, seq monotonicity, the three
step-protocol blocks, turn counting, causal check, append. -/
def collectStep (schemaOk : Json → Bool) (manifest : Json) (o : Json)
    (st : HState) : Except HookErrCore HState :=
  if eventTypeOf o = some "hooks.header" then
    match validate_header o manifest with
    | Except.error k => Except.error (HookErrCore.headerMismatch k)
    | Except.ok _ => Except.ok st
  else if !(schemaOk o) then Except.error HookErrCore.schemaFailed
  else
    checkSeq o st >>= stepStart o >>= stepEnd o >>= ctrlAck o >>= tailChecks o

/-- The line loop, numbering lines from `n` and decorating any rejection
with its 1-based line number. -/
def collectFrom (schemaOk : Json → Bool) (manifest : Json) :
    Nat → List Json → HState → Except HookErr HState
  | _, [], st => Except.ok st
  | n, o :: rest, st =>
    match collectStep schemaOk manifest o st with
    | Except.error e => Except.error (HookErr.atLine n e)
    | Except.ok st1 => collectFrom schemaOk manifest (n + 1) rest st1

/-- `HookCollector.collect` over a parsed line sequence: run the loop from
line 1, then reject a stream that ends with a pending acknowledgement;
on success return the accepted events and the turn count. -/
def collect (schemaOk : Json → Bool) (manifest : Json) (lines : List Json) :
    Except HookErr (List Json × Nat) :=
  match collectFrom schemaOk manifest 1 lines initHState with
  | Except.error e => Except.error e
  | Except.ok st =>
    match st.pendingAck with
    | some p => Except.error (HookErr.missingAckAtEnd p)
    | none => Except.ok (st.events, st.turnCount)

/-! ## Replay index (`agentlab_runner/replay_engine.py`)

`EventIndex.__init__` walks the recorded log line by line and keeps
`by_seq[int(seq)] = obj` for every line whose `seq` is not `None`; later
lines overwrite earlier ones.  `int(...)` accepts ints, bools and numeric
strings and raises otherwise. -/

/-- `int(obj.get("seq"))` when the line is indexed: `none` when the line is
skipped (`seq` absent or null), an error when `int()` raises. -/
def seqIndexKey (o : Json) : Except PyErr (Option Int) :=
  match jget o "seq" with
  | none => Except.ok none
  | some Json.null => Except.ok none
  | some (Json.num n) => Except.ok (some n)
  | some (Json.bool b) => Except.ok (some (if b then 1 else 0))
  | some (Json.str s) =>
    match parseInt s with
    | some n => Except.ok (some n)
    | none => Except.error (PyErr.valueError "invalid literal for int")
  | some _ => Except.error PyErr.typeError

/-- The `by_seq` dict built by `EventIndex.__init__` (blank lines are
skipped before parsing, so the input is the parsed line sequence). -/
def indexLines : (Int → Option Json) → List Json → Except PyErr (Int → Option Json)
  | acc, [] => Except.ok acc
  | acc, o :: rest =>
    match seqIndexKey o with
    | Except.error e => Except.error e
    | Except.ok none => indexLines acc rest
    | Except.ok (some n) => indexLines (fun k => if k = n then some o else acc k) rest

def buildIndex (lines : List Json) : Except PyErr (Int → Option Json) :=
  indexLines (fun _ => none) lines

/-- `EventReplayer.get_event`: indexed lookup, raising `KeyError` for an
unknown seq. -/
def get_event (idx : Int → Option Json) (seq : Int) : Except PyErr Json :=
  match idx seq with
  | some e => Except.ok e
  | none => Except.error (PyErr.keyError ("No event with seq " ++ toString seq))

/-- The indexing key of a line as the spec describes reachability: the
integer under which the line ends up in `by_seq`, if any. -/
def seqKeyOf (o : Json) : Option Int :=
  match seqIndexKey o with
  | Except.ok k => k
  | Except.error _ => none

/-! ## Checkpoints (`agentlab_runner/checkpoints.py`)

A filesystem is a map from absolute file paths to contents plus the set of
existing directories.  `CheckpointManager._tar_path` archives a surface
directory with `arcname="."`, so the archive holds the directory tree as
`./`-relative member names; the artifact store and the checkpoint JSON
documents live outside the modelled surface trees and are kept as separate
components of the world state. -/

structure FileSys where
  files : List (String × String)
  dirs : List String

structure World where
  fs : FileSys
  store : ArtifactStore
  ckptFiles : List (String × Json)

structure CheckpointManager where
  checkpoints_dir : String

/-- The members of `tar.add(dir, arcname=".")`: every file under `dir`,
named `./<relative path>` (directory members carry no contents and are
recreated implicitly on extraction). -/
def dirEntriesRel (files : List (String × String)) (dir : String) :
    List (String × String) :=
  files.filterMap (fun kv =>
    if strStartsWith kv.1 (dir ++ "/") then
      some ("./" ++ strDrop kv.1 (dir.length + 1), kv.2)
    else none)

/-- `os.path.exists` for a surface directory. -/
def dirExists (fs : FileSys) (p : String) : Bool :=
  fs.dirs.contains p

/-- `CheckpointManager._safe_extract`: every member must pass the
`realpath(join(path, name)).startswith(realpath(path))` guard, else the
whole extraction fails with `ValueError("Unsafe path in tar archive")`;
then `tar.extractall(path)` writes every member. -/
def memberSafe (dest name : String) : Bool :=
  strStartsWith (realpath (joinPath dest name)) (realpath dest)

def extractAll (fs : FileSys) (entries : List (String × String)) (dest : String) :
    FileSys :=
  { fs with files :=
      entries.foldl (fun acc m => setKey acc (realpath (joinPath dest m.1)) m.2) fs.files }

def safe_extract (fs : FileSys) (entries : List (String × String)) (dest : String) :
    Except PyErr FileSys :=
  if entries.all (fun m => memberSafe dest m.1) then
    Except.ok (extractAll fs entries dest)
  else
    Except.error (PyErr.valueError "Unsafe path in tar archive")

/-- The surface loop of `CheckpointManager.save`: archive each surface
directory, store the archive with `put_file`, and collect the
`name -> {path, artifact_ref}` entries in order. -/
def saveSurfaces (sha : Bytes → String) (fs : FileSys) :
    ArtifactStore → List (String × String) →
    Except PyErr (ArtifactStore × List (String × Json))
  | st, [] => Except.ok (st, [])
  | st, (name, path) :: rest =>
    if !(dirExists fs path) then Except.error (PyErr.fileNotFound path)
    else
      let tar := Bytes.tarGz (dirEntriesRel fs.files path)
      let r := put_file sha st "/tmp/ckpt.tar.gz" tar
      match saveSurfaces sha fs r.1 rest with
      | Except.error e => Except.error e
      | Except.ok (st1, entries) =>
        Except.ok (st1,
          (name, Json.obj [("path", Json.str path), ("artifact_ref", Json.str r.2.1)])
            :: entries)

/-- `CheckpointManager.save`: build the checkpoint record, store every
surface archive, and write the record as
`<checkpoints_dir>/checkpoint_<label>.json`. -/
def cpSave (sha : Bytes → String) (mgr : CheckpointManager) (w : World)
    (now label : String) (surfaces : List (String × String))
    (runtime_state : Json) : Except PyErr (World × Json) :=
  match saveSurfaces sha w.fs w.store surfaces with
  | Except.error e => Except.error e
  | Except.ok (st1, entries) =>
    let ckpt := Json.obj
      [("label", Json.str label), ("created_at", Json.str now),
       ("surfaces", Json.obj entries), ("runtime_state", runtime_state)]
    let out := mgr.checkpoints_dir ++ "/checkpoint_" ++ label ++ ".json"
    Except.ok ({ w with store := st1, ckptFiles := setKey w.ckptFiles out ckpt },
               ckpt)

/-- The surface loop of `CheckpointManager.restore`: fetch each archive by
ref, `os.makedirs(dest)`, and `_safe_extract` into the recorded path.
Fetching something that is not a tar archive fails when `tarfile.open`
parses it. -/
def restoreSurfaces (w : World) : List Json → Except PyErr World
  | [] => Except.ok w
  | surf :: rest =>
    match jget surf "path", jget surf "artifact_ref" with
    | some (Json.str dest), some (Json.str ref) =>
      (match get_bytes w.store ref with
       | Except.error e => Except.error e
       | Except.ok (Bytes.raw _) => Except.error (PyErr.valueError "not a gzip file")
       | Except.ok (Bytes.tarGz entries) =>
         let fs1 := { w.fs with dirs :=
           if w.fs.dirs.contains dest then w.fs.dirs else dest :: w.fs.dirs }
         match safe_extract fs1 entries dest with
         | Except.error e => Except.error e
         | Except.ok fs2 => restoreSurfaces { w with fs := fs2 } rest)
    | _, _ => Except.error (PyErr.keyError "path")

/-- `CheckpointManager.restore`: load the checkpoint record and restore
each recorded surface in order. -/
def cpRestore (w : World) (checkpoint_path : String) : Except PyErr (World × Json) :=
  match getKey w.ckptFiles checkpoint_path with
  | none => Except.error (PyErr.fileNotFound checkpoint_path)
  | some ckpt =>
    let surfs :=
      match jget ckpt "surfaces" with
      | some (Json.obj entries) => entries.map Prod.snd
      | _ => []
    match restoreSurfaces w surfs with
    | Except.error e => Except.error e
    | Except.ok w1 => Except.ok (w1, ckpt)

/-! ## Experiment resolution (`agentlab_runner/experiment_resolver.py`)

`resolve_experiment_config` is pure up to filesystem probes and the clock,
which enter as an environment. -/

structure ResolveEnv where
  fileExists : String → Bool
  sha256_file : String → String
  now : String

/-- The version gate of `resolve_experiment_config`:
`exp.get("version") != "0.3"` fails, so resolution proceeds exactly when
the `version` field is the string `"0.3"`. -/
def versionIs03 (exp : Json) : Bool :=
  match jget exp "version" with
  | some (Json.str s) => s == "0.3"
  | _ => false

/-- The per-argument path-absolutization heuristic of
`resolve_experiment_config`. -/
def resolveArg (env : ResolveEnv) (base_dir : String) (arg : Json) : Json :=
  match arg with
  | Json.str s =>
    if isAbs s then arg
    else if strStartsWith s "./" || s.data.contains '/' then
      let candidate := normpathStr (joinPath base_dir s)
      if env.fileExists candidate then Json.str candidate else arg
    else arg
  | _ => arg

/-- `resolve_experiment_config` (error messages abbreviated to avoid quote
characters; the raised types match the source: every raise is a
`ValueError`). -/
def resolve_experiment_config (env : ResolveEnv) (experiment : Json)
    (base_dir : String) : Except PyErr Json :=
  let exp := experiment
  if !(versionIs03 exp) then
    Except.error (PyErr.valueError "Only version 0.3 is supported")
  else
    let dataset := pyOr (jget exp "dataset") (Json.obj [])
    (match jget dataset "path" with
     | some (Json.str p) =>
       if p = "" then Except.error (PyErr.valueError "dataset.path is required")
       else
         let dataset_path := if isAbs p then p else normpathStr (joinPath base_dir p)
         let dataset1 := jset dataset "path" (Json.str dataset_path)
         let dataset2 :=
           if !(jhas dataset1 "content_hash") ||
              !(pyTruthy (jgetD dataset1 "content_hash" Json.null)) then
             jset dataset1 "content_hash" (Json.str (env.sha256_file dataset_path))
           else dataset1
         let exp1 := jset exp "dataset" dataset2
         let exp2 := jset exp1 "registered_at" (Json.str env.now)
         let runtime := pyOr (jget exp2 "runtime") (Json.obj [])
         let harness := pyOr (jget runtime "harness") (Json.obj [])
         (match jget harness "mode" with
          | some (Json.str "cli") =>
            if !(pyTruthy (jgetD harness "command" Json.null)) then
              Except.error (PyErr.valueError "runtime.harness.command is required")
            else
              let cmd :=
                match jget harness "command" with
                | some (Json.arr xs) => xs
                | _ => []
              let harness1 := jset harness "command" (Json.arr (cmd.map (resolveArg env base_dir)))
              let harness2 :=
                if jhas harness1 "integration_level" then harness1
                else jset harness1 "integration_level" (Json.str "cli_basic")
              let harness3 :=
                if jhas harness2 "control_plane" then harness2
                else jset harness2 "control_plane"
                  (Json.obj [("mode", Json.str "file"),
                             ("path", Json.str "/state/lab_control.json")])
              let runtime1 := jset runtime "harness" harness3
              Except.ok (jset exp2 "runtime" runtime1)
          | _ => Except.error (PyErr.valueError "runtime.harness.mode must be cli"))
     | some v =>
       if pyTruthy v then Except.error PyErr.typeError
       else Except.error (PyErr.valueError "dataset.path is required")
     | none => Except.error (PyErr.valueError "dataset.path is required"))

/-! ## Statement-level predicates and concrete test vectors -/

/-- The hash-chain shape of a recorded event sequence, starting from a
`prev` value `p`: the head's `hashchain.prev` is `p`, its `hashchain.self`
is its own self-blanked content hash, and the tail chains from that hash. -/
def ChainFrom (sha : Bytes → String) : String → List Json → Prop
  | _, [] => True
  | p, e :: rest =>
    prevOf e = some (Json.str p) ∧
    selfOf e = some (Json.str (hash_event_without_self sha e)) ∧
    ChainFrom sha (hash_event_without_self sha e) rest

/-- A concrete stand-in for SHA-256 in witness instantiations (any function
of the right type; this one distinguishes inputs by kind and length). -/
def shaLen : Bytes → String
  | Bytes.raw bs => "sha256:r" ++ toString bs.length
  | Bytes.tarGz es => "sha256:t" ++ toString (es.map (fun e => e.1.length + e.2.length)).sum

/-- A minimal hook event for concrete streams. -/
def mkHookEvent (t : String) (seq : Int) (si : Option Int) : Json :=
  Json.obj ([("event_type", Json.str t), ("seq", Json.num seq)] ++
    (match si with
     | some n => [("step_index", Json.num n)]
     | none => []))

/-- A caller-supplied event that tries to dictate `seq` and the hash chain. -/
def advEventSample : Json :=
  Json.obj [("event_type", Json.str "test"), ("seq", Json.num 42),
            ("hashchain", Json.obj [("prev", Json.str "sha256:attacker"),
                                    ("self", Json.str "sha256:bogus")])]

/-- A concrete two-event `record` scenario used by witnesses. -/
def recInputsSample : List RecInput :=
  [(Json.obj [("event_type", Json.str "test"), ("seq", Json.num 1)], none, none),
   (Json.obj [("event_type", Json.str "test"), ("seq", Json.num 2)], none, none)]

/-- Is this `get_bytes` outcome the not-found failure? -/
def isNotFoundErr (r : Except PyErr Bytes) : Bool :=
  match r with
  | Except.error (PyErr.fileNotFound _) => true
  | _ => false

/-- A store holding one blob under hex name `aa`, for concrete lookups. -/
def storeSample : ArtifactStore :=
  { root := "/art", blobs := [("/art/sha256/aa", Bytes.raw [104, 105])] }

/-- A resolver environment for witnesses. -/
def resolveEnvSample : ResolveEnv :=
  { fileExists := fun _ => false, sha256_file := fun _ => "sha256:ds",
    now := "2026-10-12T00:00:00+00:00" }

/-- An experiment document with an unsupported version and otherwise
well-formed dataset/harness sections. -/
def expBadVersionSample : Json :=
  Json.obj [("version", Json.str "0.2"),
            ("dataset", Json.obj [("path", Json.str "data.jsonl")]),
            ("runtime", Json.obj [("harness",
              Json.obj [("mode", Json.str "cli"),
                        ("command", Json.arr [Json.str "run.sh"])])])]

/-- Replay log lines: two lines sharing `seq = 1`, one line without `seq`. -/
def replayEv1 : Json :=
  Json.obj [("seq", Json.num 1), ("event_type", Json.str "first")]

def replayEv2 : Json :=
  Json.obj [("seq", Json.num 1), ("event_type", Json.str "second")]

def replayEvNoSeq : Json :=
  Json.obj [("event_type", Json.str "no_seq")]

def replayLogSample : List Json :=
  [replayEv1, replayEv2, replayEvNoSeq]

/-- The C6 stream: `agent_step_start(0)`, `agent_step_end(0)`,
`agent_step_start(2)`, with strictly increasing `seq`. -/
def hookStreamGapSample : List Json :=
  [mkHookEvent "agent_step_start" 1 (some 0),
   mkHookEvent "agent_step_end" 2 (some 0),
   mkHookEvent "agent_step_start" 3 (some 2)]

/-- The C6 stream with a `control_ack(0)` interposed before the gap. -/
def hookStreamGapAckSample : List Json :=
  [mkHookEvent "agent_step_start" 1 (some 0),
   mkHookEvent "agent_step_end" 2 (some 0),
   mkHookEvent "control_ack" 3 (some 0),
   mkHookEvent "agent_step_start" 4 (some 2)]

/-- A harness manifest document for the header checks. -/
def hookManifestSample : Json :=
  Json.obj [("integration_level", Json.str "cli_events"),
            ("step", Json.obj [("semantics", Json.str "decision_cycle")]),
            ("hooks", Json.obj [("schema_version", Json.str "hook_events_v1")])]

/-- A header event agreeing with `hookManifestSample` on its one
overlapping key, carrying a wildly out-of-order `seq`. -/
def hookHeaderSample : Json :=
  Json.obj [("event_type", Json.str "hooks.header"), ("seq", Json.num 100),
            ("hooks_schema_version", Json.str "hook_events_v1")]

/-- A header event disagreeing with the manifest. -/
def hookHeaderBadSample : Json :=
  Json.obj [("event_type", Json.str "hooks.header"),
            ("hooks_schema_version", Json.str "other")]

/-- Two plain events around the header. -/
def hookEvA : Json :=
  mkHookEvent "note" 1 none

def hookEvB : Json :=
  mkHookEvent "note" 2 none

/-- A schema stand-in that rejects exactly header-typed events, to exhibit
that headers are exempt from schema validation. -/
def schemaOkNonHeader : Json → Bool :=
  fun o => !(eventTypeOf o == some "hooks.header")

/-- C2: a checkpoint record pointing surface `workspace` at `/work/data`. -/
def ckptEscapeSample : Json :=
  Json.obj [("label", Json.str "x"), ("created_at", Json.str "t"),
            ("surfaces", Json.obj [("workspace",
              Json.obj [("path", Json.str "/work/data"),
                        ("artifact_ref", Json.str "artifact://sha256/aa")])]),
            ("runtime_state", Json.obj [])]

/-- C2: a stored archive whose member escapes `/work/data` into the sibling
directory `/work/data2` while passing the prefix check. -/
def worldEscapeSample : World :=
  { fs := { files := [], dirs := ["/work/data"] },
    store := { root := "/art",
               blobs := [("/art/sha256/aa",
                 Bytes.tarGz [("../data2/pwn", "owned")])] },
    ckptFiles := [("/ck/checkpoint_x.json", ckptEscapeSample)] }

/-- C2: the same layout with a `../../etc/passwd` member instead. -/
def worldPasswdSample : World :=
  { fs := { files := [], dirs := ["/work/data"] },
    store := { root := "/art",
               blobs := [("/art/sha256/aa",
                 Bytes.tarGz [("../../etc/passwd", "root")])] },
    ckptFiles := [("/ck/checkpoint_x.json", ckptEscapeSample)] }

theorem getKey_setKey_same {α : Type} (l : List (String × α)) (k : String) (v : α) :
    getKey (setKey l k v) k = some v := by
  induction l with
  | nil => simp [getKey, setKey]
  | cons kv rest ih =>
    by_cases h : kv.1 = k
    · simp [setKey, h, getKey]
    · simp [setKey, h, getKey, ih]

theorem getKey_setKey_ne {α : Type} (l : List (String × α)) (k k' : String) (v : α)
    (h : k' ≠ k) : getKey (setKey l k v) k' = getKey l k' := by
  induction l with
  | nil => simp [getKey, setKey, Ne.symm h]
  | cons kv rest ih =>
    by_cases hk : kv.1 = k
    · subst hk
      simp [setKey, getKey, Ne.symm h, ih]
    · by_cases hk' : kv.1 = k'
      · simp [setKey, hk, getKey, hk', h]
      · simp [setKey, hk, getKey, hk', ih]

theorem eraseKey_setKey {α : Type} (l : List (String × α)) (k : String) (v : α) :
    eraseKey (setKey l k v) k = eraseKey l k := by
  induction l with
  | nil => simp [setKey, eraseKey]
  | cons kv rest ih =>
    by_cases h : kv.1 = k
    · simp [setKey, h, eraseKey]
    · simp [setKey, h, eraseKey, ih]

theorem setKey_setKey {α : Type} (l : List (String × α)) (k : String) (v w : α) :
    setKey (setKey l k v) k w = setKey l k w := by
  induction l with
  | nil => simp [setKey]
  | cons kv rest ih =>
    by_cases h : kv.1 = k
    · simp [setKey, h]
    · simp [setKey, h, ih]

theorem getKey_mem {α : Type} (l : List (String × α)) (k : String) (v : α)
    (h : getKey l k = some v) : (k, v) ∈ l := by
  induction l with
  | nil => simp [getKey] at h
  | cons kv rest ih =>
    by_cases hk : kv.1 = k
    · rw [getKey, if_pos hk] at h
      cases h
      cases kv with
      | mk k1 v1 =>
        simp at hk
        subst hk
        exact List.mem_cons_self _ _
    · rw [getKey, if_neg hk] at h
      exact List.mem_cons_of_mem _ (ih h)

theorem isObj_jset (o : Json) (k : String) (v : Json) :
    isObj (jset o k v) = isObj o := by
  cases o <;> simp [jset, isObj]

theorem jget_jset_same (o : Json) (k : String) (v : Json) (h : isObj o = true) :
    jget (jset o k v) k = some v := by
  cases o <;> simp [isObj] at h ⊢
  simp [jset, jget, getKey_setKey_same]

theorem jget_jset_ne (o : Json) (k k' : String) (v : Json) (h : k' ≠ k) :
    jget (jset o k v) k' = jget o k' := by
  cases o <;> simp [jset, jget]
  exact getKey_setKey_ne _ _ _ _ h

theorem jset_jset_same (o : Json) (k : String) (v w : Json) :
    jset (jset o k v) k w = jset o k w := by
  cases o <;> simp [jset]
  exact setKey_setKey _ _ _ _

/-! ## Recorder lemmas -/

theorem record_snd (sha : Bytes → String) (st : RecState) (ev : Json)
    (pb : Option Bytes) (red : Option Json) :
    ∃ o2 : Json, isObj o2 = isObj ev ∧ jget o2 "seq" = jget ev "seq" ∧
      (record sha st ev pb red).2 =
        setHashchainSelf
          (jset o2 "hashchain"
            (Json.obj [("prev", Json.str st.prev_hash), ("self", Json.str "")]))
          (hash_event_without_self sha
            (jset o2 "hashchain"
              (Json.obj [("prev", Json.str st.prev_hash), ("self", Json.str "")]))) ∧
      (record sha st ev pb red).1.prev_hash =
        hash_event_without_self sha
          (jset o2 "hashchain"
            (Json.obj [("prev", Json.str st.prev_hash), ("self", Json.str "")])) := by
  cases pb with
  | none =>
    by_cases hr : jhas ev "redaction"
    · refine ⟨ev, rfl, rfl, ?_, ?_⟩ <;> simp [record, hr]
    · refine ⟨jset ev "redaction"
        (match red with
         | some r => if pyTruthy r then r else defaultRedaction
         | none => defaultRedaction), isObj_jset _ _ _, ?_, ?_, ?_⟩
      · exact jget_jset_ne _ _ _ _ (by decide)
      · simp [record, hr]
      · simp [record, hr]
  | some p =>
    by_cases hr : jhas (jset ev "payload_ref" (Json.str (put_bytes sha st.store p).2.1)) "redaction"
    · refine ⟨jset ev "payload_ref" (Json.str (put_bytes sha st.store p).2.1), ?_, ?_, ?_, ?_⟩
      · exact isObj_jset _ _ _
      · exact jget_jset_ne _ _ _ _ (by decide)
      · simp [record, hr]
      · simp [record, hr]
    · refine ⟨jset (jset ev "payload_ref" (Json.str (put_bytes sha st.store p).2.1)) "redaction"
        (match red with
         | some r => if pyTruthy r then r else defaultRedaction
         | none => defaultRedaction), ?_, ?_, ?_, ?_⟩
      · rw [isObj_jset, isObj_jset]
      · rw [jget_jset_ne _ _ _ _ (by decide : ("seq" : String) ≠ "redaction"),
            jget_jset_ne _ _ _ _ (by decide : ("seq" : String) ≠ "payload_ref")]
      · simp [record, hr]
      · simp [record, hr]

theorem setHashchainSelf_on_jset (o : Json) (p hh : String) (ho : isObj o = true) :
    setHashchainSelf
      (jset o "hashchain" (Json.obj [("prev", Json.str p), ("self", Json.str "")])) hh
    = jset o "hashchain" (Json.obj [("prev", Json.str p), ("self", Json.str hh)]) := by
  unfold setHashchainSelf
  rw [jget_jset_same _ _ _ ho]
  show jset (jset o "hashchain" (Json.obj [("prev", Json.str p), ("self", Json.str "")]))
        "hashchain"
        (Json.obj (setKey [("prev", Json.str p), ("self", Json.str "")] "self" (Json.str hh)))
      = _
  rw [jset_jset_same]
  rfl

theorem hash_on_jset_hashchain (sha : Bytes → String) (o : Json) (fs : List (String × Json))
    (ho : isObj o = true) :
    hash_event_without_self sha (jset o "hashchain" (Json.obj fs))
      = sha (strUtf8 (canonical_dumps (jset o "hashchain" (Json.obj (eraseKey fs "self"))))) := by
  unfold hash_event_without_self
  rw [jget_jset_same _ _ _ ho]
  show sha (strUtf8 (canonical_dumps
      (jset (jset o "hashchain" (Json.obj fs)) "hashchain" (Json.obj (eraseKey fs "self")))))
    = _
  rw [jset_jset_same]

theorem record_spec (sha : Bytes → String) (st : RecState) (ev : Json)
    (pb : Option Bytes) (red : Option Json) (hev : isObj ev = true) :
    prevOf (record sha st ev pb red).2 = some (Json.str st.prev_hash) ∧
    selfOf (record sha st ev pb red).2 =
      some (Json.str (hash_event_without_self sha (record sha st ev pb red).2)) ∧
    (record sha st ev pb red).1.prev_hash =
      hash_event_without_self sha (record sha st ev pb red).2 ∧
    jget (record sha st ev pb red).2 "seq" = jget ev "seq" := by
  obtain ⟨o2, hobj, hseq, hsnd, hfst⟩ := record_snd sha st ev pb red
  have ho2 : isObj o2 = true := by rw [hobj, hev]
  rw [setHashchainSelf_on_jset _ _ _ ho2] at hsnd
  have hget4 : jget (record sha st ev pb red).2 "hashchain"
      = some (Json.obj [("prev", Json.str st.prev_hash),
          ("self", Json.str (hash_event_without_self sha
            (jset o2 "hashchain"
              (Json.obj [("prev", Json.str st.prev_hash), ("self", Json.str "")]))))]) := by
    rw [hsnd]
    exact jget_jset_same _ _ _ ho2
  have hchain4 : hash_event_without_self sha (record sha st ev pb red).2
      = hash_event_without_self sha
          (jset o2 "hashchain"
            (Json.obj [("prev", Json.str st.prev_hash), ("self", Json.str "")])) := by
    rw [hsnd, hash_on_jset_hashchain _ _ _ ho2, hash_on_jset_hashchain _ _ _ ho2]
    rfl
  refine ⟨?_, ?_, ?_, ?_⟩
  · unfold prevOf
    rw [hget4]
    rfl
  · unfold selfOf
    rw [hget4, hchain4]
    rfl
  · rw [hchain4, hfst]
  · rw [hsnd, jget_jset_ne _ _ _ _ (by decide : ("seq" : String) ≠ "hashchain"), hseq]

theorem recordAll_chain (sha : Bytes → String) (inputs : List RecInput) (st : RecState)
    (h : ∀ p ∈ inputs, isObj p.1 = true) :
    ChainFrom sha st.prev_hash (recordAll sha st inputs).2 := by
  induction inputs generalizing st with
  | nil => simp [recordAll, ChainFrom]
  | cons inp rest ih =>
    obtain ⟨h1, h2, h3, _⟩ :=
      record_spec sha st inp.1 inp.2.1 inp.2.2 (h inp (List.mem_cons_self _ _))
    have hrest := ih (record sha st inp.1 inp.2.1 inp.2.2).1
      (fun p hp => h p (List.mem_cons_of_mem _ hp))
    rw [h3] at hrest
    exact ⟨h1, h2, hrest⟩

theorem chainFrom_first (sha : Bytes → String) (p : String) (es : List Json)
    (h : ChainFrom sha p es) (h0 : 0 < es.length) :
    prevOf (es.get ⟨0, h0⟩) = some (Json.str p) := by
  cases es with
  | nil => simp at h0
  | cons e rest => exact h.1

theorem chainFrom_self (sha : Bytes → String) (p : String) (es : List Json)
    (h : ChainFrom sha p es) :
    ∀ i (hi : i < es.length),
      selfOf (es.get ⟨i, hi⟩)
        = some (Json.str (hash_event_without_self sha (es.get ⟨i, hi⟩))) := by
  induction es generalizing p with
  | nil =>
    intro i hi
    simp at hi
  | cons e rest ih =>
    intro i hi
    cases i with
    | zero => exact h.2.1
    | succ j => exact ih _ h.2.2 j (Nat.lt_of_succ_lt_succ hi)

theorem chainFrom_link (sha : Bytes → String) (p : String) (es : List Json)
    (h : ChainFrom sha p es) :
    ∀ i (hi : i + 1 < es.length),
      prevOf (es.get ⟨i + 1, hi⟩) = selfOf (es.get ⟨i, Nat.lt_of_succ_lt hi⟩) := by
  induction es generalizing p with
  | nil =>
    intro i hi
    simp at hi
  | cons e rest ih =>
    intro i hi
    cases i with
    | zero =>
      have h0 : 0 < rest.length := Nat.lt_of_succ_lt_succ hi
      have hp := chainFrom_first sha _ rest h.2.2 h0
      exact hp.trans h.2.1.symm
    | succ j => exact ih _ h.2.2 j (Nat.lt_of_succ_lt_succ hi)

/-! ## C1 -/

/-- C1: for every sequence of events produced by successive `record` calls
on a single fresh `EventRecorder`, the first stored event's
`hashchain.prev` is the all-zero `GENESIS_HASH`, every later event's
`hashchain.prev` equals the preceding event's `hashchain.self`, and every
event's `hashchain.self` is the content hash of its canonical encoding with
the `self` field removed. -/
theorem eventRecorder_hashchain_invariant (sha : Bytes → String)
    (store : ArtifactStore) (inputs : List RecInput)
    (h : inputs.all (fun p => isObj p.1) = true) :
    (∀ h0 : 0 < ((recordAll sha (initRecorder store) inputs).2).length,
       prevOf (((recordAll sha (initRecorder store) inputs).2).get ⟨0, h0⟩)
         = some (Json.str GENESIS_HASH)) ∧
    (∀ i (hi : i + 1 < ((recordAll sha (initRecorder store) inputs).2).length),
       prevOf (((recordAll sha (initRecorder store) inputs).2).get ⟨i + 1, hi⟩)
         = selfOf (((recordAll sha (initRecorder store) inputs).2).get
             ⟨i, Nat.lt_of_succ_lt hi⟩)) ∧
    (∀ i (hi : i < ((recordAll sha (initRecorder store) inputs).2).length),
       selfOf (((recordAll sha (initRecorder store) inputs).2).get ⟨i, hi⟩)
         = some (Json.str (hash_event_without_self sha
             (((recordAll sha (initRecorder store) inputs).2).get ⟨i, hi⟩)))) := by
  have hin : ∀ p ∈ inputs, isObj p.1 = true := by
    intro p hp
    exact List.all_eq_true.mp h p hp
  have hc := recordAll_chain sha inputs (initRecorder store) hin
  exact ⟨fun h0 => chainFrom_first sha _ _ hc h0,
         fun i hi => chainFrom_link sha _ _ hc i hi,
         fun i hi => chainFrom_self sha _ _ hc i hi⟩

/-- Witness for C1 at a concrete two-event recording. -/
theorem eventRecorder_hashchain_invariant_witness :
    (recInputsSample.all (fun p => isObj p.1) = true) ∧
    prevOf (((recordAll shaLen (initRecorder ⟨"/art", []⟩) recInputsSample).2).get
        ⟨0, by decide⟩) = some (Json.str GENESIS_HASH) ∧
    prevOf (((recordAll shaLen (initRecorder ⟨"/art", []⟩) recInputsSample).2).get
        ⟨1, by decide⟩)
      = selfOf (((recordAll shaLen (initRecorder ⟨"/art", []⟩) recInputsSample).2).get
        ⟨0, by decide⟩) := by
  refine ⟨rfl, ?_, ?_⟩
  · exact (eventRecorder_hashchain_invariant shaLen ⟨"/art", []⟩ recInputsSample rfl).1
      (by decide)
  · exact (eventRecorder_hashchain_invariant shaLen ⟨"/art", []⟩ recInputsSample rfl).2.1 0
      (by decide)

/-! ## C3 -/

/-- C3 counterexample: the `seq` field of the stored event is taken
verbatim from the caller-supplied event (`record` never writes `seq`), so
it is not assigned by the recorder: two calls on identical fresh recorders
that differ only in the caller's `seq` store different `seq` values. -/
theorem record_seq_taken_from_caller_cex :
    jget ((record shaLen (initRecorder ⟨"/art", []⟩)
        (Json.obj [("event_type", Json.str "test"), ("seq", Json.num 42)])
        none none).2) "seq" = some (Json.num 42) ∧
    jget ((record shaLen (initRecorder ⟨"/art", []⟩)
        (Json.obj [("event_type", Json.str "test"), ("seq", Json.num 7)])
        none none).2) "seq" = some (Json.num 7) :=
  ⟨rfl, rfl⟩

/-- C3 (amended): `hashchain.prev` (with the whole `hashchain` object) is
assigned by the recorder from its own running state, regardless of any
`hashchain` content the caller supplied; the `seq` field, by contrast, is
passed through from the caller-supplied event unchanged — the recorder does
not assign it. -/
theorem record_assigns_prev_not_seq (sha : Bytes → String) (st : RecState)
    (ev : Json) (pb : Option Bytes) (red : Option Json) (hev : isObj ev = true) :
    prevOf (record sha st ev pb red).2 = some (Json.str st.prev_hash) ∧
    jget (record sha st ev pb red).2 "seq" = jget ev "seq" :=
  ⟨(record_spec sha st ev pb red hev).1, (record_spec sha st ev pb red hev).2.2.2⟩

/-- Witness for the amended C3 at a caller event carrying adversarial
`seq` and `hashchain` values. -/
theorem record_assigns_prev_not_seq_witness :
    isObj advEventSample = true ∧
    prevOf (record shaLen (initRecorder ⟨"/art", []⟩) advEventSample none none).2
      = some (Json.str GENESIS_HASH) ∧
    jget (record shaLen (initRecorder ⟨"/art", []⟩) advEventSample none none).2 "seq"
      = some (Json.num 42) :=
  ⟨rfl,
   (record_assigns_prev_not_seq shaLen (initRecorder ⟨"/art", []⟩) advEventSample
      none none rfl).1,
   (record_assigns_prev_not_seq shaLen (initRecorder ⟨"/art", []⟩) advEventSample
      none none rfl).2⟩

/-! ## C4 -/

/-- C4 counterexample: a malformed ref does not fail with the not-found
error — `get_bytes` raises `ValueError("Invalid artifact ref")` for it,
while only an absent blob produces the file-not-found failure. -/
theorem get_bytes_malformed_ref_cex :
    get_bytes storeSample "bogus" = Except.error (PyErr.valueError "Invalid artifact ref") ∧
    isNotFoundErr (get_bytes storeSample "bogus") = false :=
  ⟨rfl, rfl⟩

/-- C4 (amended): `get_bytes` returns the stored blob's bytes when a blob
with the ref's hash exists and fails with the file-not-found error when
none is stored; a malformed ref (one not starting with
`artifact://sha256/`) instead fails with `ValueError("Invalid artifact
ref")`. -/
theorem get_bytes_spec_amended (st : ArtifactStore) :
    (∀ ref hex, strStartsWith ref "artifact://sha256/" = true → lastSlashComp ref = hex →
       get_bytes st ref =
         match getKey st.blobs (path_for_hash st hex) with
         | some b => Except.ok b
         | none => Except.error (PyErr.fileNotFound (path_for_hash st hex))) ∧
    (∀ ref, strStartsWith ref "artifact://sha256/" = false →
       get_bytes st ref = Except.error (PyErr.valueError "Invalid artifact ref")) := by
  constructor
  · intro ref hex h1 h2
    unfold get_bytes
    rw [h1, h2]
    rfl
  · intro ref h1
    unfold get_bytes
    rw [h1]
    rfl

/-- Witness for the amended C4: a present blob is returned, an absent hash
fails file-not-found, a malformed ref fails with the invalid-ref error. -/
theorem get_bytes_spec_amended_witness :
    get_bytes storeSample "artifact://sha256/aa" = Except.ok (Bytes.raw [104, 105]) ∧
    get_bytes storeSample "artifact://sha256/bb"
      = Except.error (PyErr.fileNotFound "/art/sha256/bb") ∧
    get_bytes storeSample "bogus"
      = Except.error (PyErr.valueError "Invalid artifact ref") :=
  ⟨(get_bytes_spec_amended storeSample).1 "artifact://sha256/aa" "aa" rfl rfl,
   (get_bytes_spec_amended storeSample).1 "artifact://sha256/bb" "bb" rfl rfl,
   (get_bytes_spec_amended storeSample).2 "bogus" rfl⟩

/-! ## C5 -/

theorem append_tmp_ne (s : String) : (s ++ ".tmp") ≠ s := by
  intro h
  have hl := congrArg String.length h
  rw [String.length_append] at hl
  have h4 : (".tmp" : String).length = 4 := rfl
  rw [h4] at hl
  omega

/-- C5 counterexample: `put_file` of a new blob copies the source file
directly onto its final content-addressed name — its filesystem trace is a
`copyfile` landing on the destination, not a temp-write followed by a
rename, so the trace is not atomic for the destination. -/
theorem put_file_not_atomic_cex :
    (put_file shaLen ⟨"/art", []⟩ "/tmp/src.tar.gz" (Bytes.raw [104])).2.2
      = [FsOp.makedirs "/art/sha256",
         FsOp.copyfile "/tmp/src.tar.gz" "/art/sha256/r1"] ∧
    atomicTraceB (put_file shaLen ⟨"/art", []⟩ "/tmp/src.tar.gz" (Bytes.raw [104])).2.2
      "/art/sha256/r1" = false :=
  ⟨rfl, rfl⟩

/-- C5 (amended): `put_bytes` of a new blob writes `<dest>.tmp` and then
renames it into place — an atomic trace for the destination — while
`put_file` of a new blob copies the source directly onto the destination
with no temporary location or rename. -/
theorem artifact_store_write_traces (sha : Bytes → String) (st : ArtifactStore)
    (data content : Bytes) (srcPath : String) :
    ((getKey st.blobs (path_for_hash st (afterColon (sha data)))).isSome = false →
       (put_bytes sha st data).2.2 =
         [FsOp.makedirs (dirname (path_for_hash st (afterColon (sha data)))),
          FsOp.write (path_for_hash st (afterColon (sha data)) ++ ".tmp") data,
          FsOp.replace (path_for_hash st (afterColon (sha data)) ++ ".tmp")
            (path_for_hash st (afterColon (sha data)))] ∧
       atomicTraceB (put_bytes sha st data).2.2
         (path_for_hash st (afterColon (sha data))) = true) ∧
    ((getKey st.blobs (path_for_hash st (afterColon (sha content)))).isSome = false →
       (put_file sha st srcPath content).2.2 =
         [FsOp.makedirs (dirname (path_for_hash st (afterColon (sha content)))),
          FsOp.copyfile srcPath (path_for_hash st (afterColon (sha content)))]) := by
  constructor
  · intro h
    have htr : (put_bytes sha st data).2.2 =
        [FsOp.makedirs (dirname (path_for_hash st (afterColon (sha data)))),
         FsOp.write (path_for_hash st (afterColon (sha data)) ++ ".tmp") data,
         FsOp.replace (path_for_hash st (afterColon (sha data)) ++ ".tmp")
           (path_for_hash st (afterColon (sha data)))] := by
      unfold put_bytes
      rw [Bool.eq_false_iff] at h
      simp only [h]
      simp
    refine ⟨htr, ?_⟩
    rw [htr]
    have hne : ((path_for_hash st (afterColon (sha data)) ++ ".tmp")
        == path_for_hash st (afterColon (sha data))) = false :=
      beq_eq_false_iff_ne.mpr (append_tmp_ne _)
    simp [atomicTraceB, writesBlobTo, isRenameInto, hne]
  · intro h
    unfold put_file
    rw [Bool.eq_false_iff] at h
    simp only [h]
    simp

/-- Witness for the amended C5 at a concrete empty store. -/
theorem artifact_store_write_traces_witness :
    (put_bytes shaLen ⟨"/art", []⟩ (Bytes.raw [104, 105])).2.2
      = [FsOp.makedirs "/art/sha256",
         FsOp.write "/art/sha256/r2.tmp" (Bytes.raw [104, 105]),
         FsOp.replace "/art/sha256/r2.tmp" "/art/sha256/r2"] ∧
    atomicTraceB (put_bytes shaLen ⟨"/art", []⟩ (Bytes.raw [104, 105])).2.2
      "/art/sha256/r2" = true ∧
    (put_file shaLen ⟨"/art", []⟩ "/tmp/src.tar.gz" (Bytes.raw [104])).2.2
      = [FsOp.makedirs "/art/sha256",
         FsOp.copyfile "/tmp/src.tar.gz" "/art/sha256/r1"] := by
  have h := artifact_store_write_traces shaLen ⟨"/art", []⟩ (Bytes.raw [104, 105])
    (Bytes.raw [104]) "/tmp/src.tar.gz"
  exact ⟨(h.1 rfl).1, (h.1 rfl).2, h.2 rfl⟩

/-! ## C8 -/

/-- C8: resolving an experiment document whose `version` differs from the
single supported value `"0.3"` fails with the configuration `ValueError`,
for every environment (filesystem, hashing, clock) and every content of the
dataset and harness fields — so the failure happens before any of those
fields is inspected. -/
theorem resolve_version_gate (env : ResolveEnv) (exp : Json) (base_dir : String)
    (h : versionIs03 exp = false) :
    resolve_experiment_config env exp base_dir
      = Except.error (PyErr.valueError "Only version 0.3 is supported") := by
  simp [resolve_experiment_config, h]

/-- Witness for C8 at a concrete version-`"0.2"` document with well-formed
dataset and harness sections. -/
theorem resolve_version_gate_witness :
    versionIs03 expBadVersionSample = false ∧
    resolve_experiment_config resolveEnvSample expBadVersionSample "/exp"
      = Except.error (PyErr.valueError "Only version 0.3 is supported") :=
  ⟨rfl, resolve_version_gate resolveEnvSample expBadVersionSample "/exp" rfl⟩

/-! ## C6 -/

/-- C6 counterexample: the stream `agent_step_start(0)`,
`agent_step_end(0)`, `agent_step_start(2)` is rejected at line 3 with the
missing-`control_ack` error for step 0, not with an error reporting that
the expected next step index was 1 but 2 was given. -/
theorem step_gap_stream_missing_ack_cex :
    collect (fun _ => true) hookManifestSample hookStreamGapSample
      = Except.error (HookErr.atLine 3 (HookErrCore.missingAckBeforeStart 0)) ∧
    collect (fun _ => true) hookManifestSample hookStreamGapSample
      ≠ Except.error (HookErr.atLine 3 (HookErrCore.stepIndexIncrement 1 (some 2))) := by
  refine ⟨rfl, ?_⟩
  intro h
  rw [show collect (fun _ => true) hookManifestSample hookStreamGapSample
      = Except.error (HookErr.atLine 3 (HookErrCore.missingAckBeforeStart 0)) from rfl] at h
  simp at h

/-- C6 (amended): the stream `agent_step_start(0)`, `agent_step_end(0)`,
`agent_step_start(2)` is rejected, but with the missing-`control_ack`
error (the pending acknowledgement for step 0 is checked first); only with
a `control_ack(0)` interposed does the validator reject with the
step-index error reporting expected 1, got 2. -/
theorem step_gap_rejection_behavior :
    collect (fun _ => true) hookManifestSample hookStreamGapSample
      = Except.error (HookErr.atLine 3 (HookErrCore.missingAckBeforeStart 0)) ∧
    collect (fun _ => true) hookManifestSample hookStreamGapAckSample
      = Except.error (HookErr.atLine 4 (HookErrCore.stepIndexIncrement 1 (some 2))) :=
  ⟨rfl, rfl⟩

/-! ## C10 -/

theorem getLast?_cons_cases {α : Type} (a : α) (l : List α) :
    (a :: l).getLast? =
      match l.getLast? with
      | some e => some e
      | none => some a := by
  cases l with
  | nil => rfl
  | cons b t =>
    rw [List.getLast?_cons_cons]
    cases hl : (b :: t).getLast? with
    | none => simp at hl
    | some e => rfl

theorem indexLines_spec (log : List Json) :
    ∀ (acc idx : Int → Option Json), indexLines acc log = Except.ok idx →
      ∀ s : Int, idx s =
        match (log.filter (fun o => seqKeyOf o == some s)).getLast? with
        | some e => some e
        | none => acc s := by
  induction log with
  | nil =>
    intro acc idx h s
    cases h
    rfl
  | cons o rest ih =>
    intro acc idx h s
    rw [indexLines] at h
    cases hk : seqIndexKey o with
    | error e => rw [hk] at h; cases h
    | ok kOpt =>
      rw [hk] at h
      have hkey : seqKeyOf o = kOpt := by
        unfold seqKeyOf
        rw [hk]
      cases kOpt with
      | none =>
        have := ih acc idx h s
        rw [this, List.filter_cons]
        have hf : (seqKeyOf o == some s) = false := by
          rw [hkey]
          rfl
        rw [hf]
        simp
      | some n =>
        have hrec := ih _ idx h s
        by_cases hns : n = s
        · subst hns
          rw [hrec, List.filter_cons]
          have hf : (seqKeyOf o == some n) = true := by
            rw [hkey]
            simp
          rw [hf]
          simp only [if_pos]
          rw [getLast?_cons_cases]
          cases hfr : (rest.filter (fun o => seqKeyOf o == some n)).getLast? with
          | some e => rfl
          | none => simp
        · rw [if_neg (fun hh => hns hh.symm)] at hrec
          rw [hrec, List.filter_cons]
          have hf : (seqKeyOf o == some s) = false := by
            rw [hkey]
            simp [hns]
          rw [hf]
          simp

/-- C10: when the recorded log contains several lines carrying the same
`seq`, `get_event` returns the last such line in file order (so all earlier
lines with that `seq` are unreachable through the index), and lines without
a `seq` field are never indexed: the lookup result for every `seq` is
exactly the last line whose indexing key is that `seq`, with a `KeyError`
when no line has it. -/
theorem replay_duplicate_seq_last_wins (log : List Json) (idx : Int → Option Json)
    (h : buildIndex log = Except.ok idx) (s : Int) :
    get_event idx s =
      match (log.filter (fun o => seqKeyOf o == some s)).getLast? with
      | some e => Except.ok e
      | none => Except.error (PyErr.keyError ("No event with seq " ++ toString s)) := by
  have hs := indexLines_spec log _ idx h s
  unfold get_event
  rw [hs]
  cases (log.filter (fun o => seqKeyOf o == some s)).getLast? with
  | some e => rfl
  | none => rfl

/-- Witness for C10 at a log with a duplicated `seq = 1` and a line without
`seq`: lookup at 1 returns the second line, lookup at 5 fails. -/
theorem replay_duplicate_seq_last_wins_witness :
    ∃ idx, buildIndex replayLogSample = Except.ok idx ∧
      get_event idx 1 = Except.ok replayEv2 ∧
      get_event idx 5 = Except.error (PyErr.keyError "No event with seq 5") := by
  refine ⟨(fun k => if k = 1 then some replayEv2 else
      (fun k1 => if k1 = 1 then some replayEv1 else
        (fun _ => (none : Option Json)) k1) k), rfl, ?_, ?_⟩
  · exact (replay_duplicate_seq_last_wins replayLogSample _ rfl 1).trans rfl
  · exact (replay_duplicate_seq_last_wins replayLogSample _ rfl 5).trans rfl

/-! ## C9 -/

theorem collectStep_header_ok (sOk : Json → Bool) (man hdr : Json) (st : HState)
    (h1 : eventTypeOf hdr = some "hooks.header")
    (h2 : validate_header hdr man = Except.ok ()) :
    collectStep sOk man hdr st = Except.ok st := by
  unfold collectStep
  rw [if_pos h1, h2]

theorem collectFrom_shift_ok (sOk : Json → Bool) (man : Json) (ls : List Json) :
    ∀ (n m : Nat) (st st1 : HState),
      collectFrom sOk man n ls st = Except.ok st1 →
      collectFrom sOk man m ls st = Except.ok st1 := by
  induction ls with
  | nil =>
    intro n m st st1 h
    exact h
  | cons o rest ih =>
    intro n m st st1 h
    rw [collectFrom] at h ⊢
    cases hs : collectStep sOk man o st with
    | error e => rw [hs] at h; cases h
    | ok st2 =>
      rw [hs] at h
      exact ih _ _ _ _ h

theorem collectFrom_insert_header (sOk : Json → Bool) (man hdr : Json)
    (h1 : eventTypeOf hdr = some "hooks.header")
    (h2 : validate_header hdr man = Except.ok ()) (pre post : List Json) :
    ∀ (n : Nat) (st st1 : HState),
      collectFrom sOk man n (pre ++ post) st = Except.ok st1 →
      collectFrom sOk man n (pre ++ hdr :: post) st = Except.ok st1 := by
  induction pre with
  | nil =>
    intro n st st1 h
    rw [List.nil_append, collectFrom, collectStep_header_ok sOk man hdr st h1 h2]
    exact collectFrom_shift_ok sOk man post n (n + 1) st st1 h
  | cons a pre ih =>
    intro n st st1 h
    rw [List.cons_append, collectFrom] at h ⊢
    cases hs : collectStep sOk man a st with
    | error e => rw [hs] at h; cases h
    | ok st2 =>
      rw [hs] at h
      exact ih _ _ _ h

/-- C9: a `hooks.header` event with fields agreeing with the harness
manifest is accepted at any position in the stream, is exempt from
seq-monotonicity and per-event schema validation (it is skipped before
either check, for every schema predicate and any `seq` it carries), and is
excluded from the returned accepted event list: inserting it anywhere in an
accepted stream leaves the result unchanged.  A header whose overlapping
field disagrees with the manifest is rejected, mid-stream included. -/
theorem header_any_position_spec :
    (∀ (sOk : Json → Bool) (man hdr : Json) (pre post : List Json)
       (r : List Json × Nat),
       eventTypeOf hdr = some "hooks.header" →
       validate_header hdr man = Except.ok () →
       collect sOk man (pre ++ post) = Except.ok r →
       collect sOk man (pre ++ hdr :: post) = Except.ok r) ∧
    collect schemaOkNonHeader hookManifestSample [hookEvA, hookHeaderSample, hookEvB]
      = Except.ok ([hookEvA, hookEvB], 0) ∧
    collect (fun _ => true) hookManifestSample [hookEvA, hookHeaderBadSample, hookEvB]
      = Except.error (HookErr.atLine 2
          (HookErrCore.headerMismatch "hooks_schema_version")) := by
  refine ⟨?_, rfl, rfl⟩
  intro sOk man hdr pre post r h1 h2 h3
  unfold collect at h3 ⊢
  cases hcf : collectFrom sOk man 1 (pre ++ post) initHState with
  | error e => rw [hcf] at h3; cases h3
  | ok st =>
    rw [hcf] at h3
    rw [collectFrom_insert_header sOk man hdr h1 h2 pre post 1 initHState st hcf]
    exact h3

/-- Witness for C9: inserting the matching header mid-stream (with a
schema predicate that rejects headers and an out-of-order `seq = 100` on
the header) leaves the accepted result unchanged. -/
theorem header_any_position_spec_witness :
    eventTypeOf hookHeaderSample = some "hooks.header" ∧
    validate_header hookHeaderSample hookManifestSample = Except.ok () ∧
    collect schemaOkNonHeader hookManifestSample [hookEvA, hookEvB]
      = Except.ok ([hookEvA, hookEvB], 0) ∧
    collect schemaOkNonHeader hookManifestSample [hookEvA, hookHeaderSample, hookEvB]
      = Except.ok ([hookEvA, hookEvB], 0) :=
  ⟨rfl, rfl, rfl,
   header_any_position_spec.1 schemaOkNonHeader hookManifestSample hookHeaderSample
     [hookEvA] [hookEvB] ([hookEvA, hookEvB], 0) rfl rfl rfl⟩

/-! ## Checkpoint round-trip lemmas -/

theorem isPrefixList_append (l m : List Char) : isPrefixList l (l ++ m) = true := by
  induction l with
  | nil => rfl
  | cons a as ih => simp [isPrefixList, ih]

theorem strStartsWith_append (p x : String) : strStartsWith (p ++ x) p = true := by
  unfold strStartsWith
  rw [String.data_append]
  exact isPrefixList_append p.data x.data

theorem getKey_foldl_setKey_not_mem (ws : List (String × String)) :
    ∀ (files : List (String × String)) (q : String), q ∉ ws.map Prod.fst →
      getKey (ws.foldl (fun acc w => setKey acc w.1 w.2) files) q = getKey files q := by
  induction ws with
  | nil =>
    intro f q _
    rfl
  | cons w ws ih =>
    intro f q h
    rw [List.map_cons] at h
    rw [List.foldl_cons, ih _ _ (fun hh => h (List.mem_cons_of_mem _ hh)),
        getKey_setKey_ne _ _ _ _
          (fun hh => h (by rw [hh]; exact List.mem_cons_self _ _))]

theorem getKey_foldl_setKey_mem (ws : List (String × String)) :
    ∀ (files : List (String × String)) (q : String) (v : String),
      (q, v) ∈ ws → (ws.map Prod.fst).Nodup →
      getKey (ws.foldl (fun acc w => setKey acc w.1 w.2) files) q = some v := by
  induction ws with
  | nil =>
    intro f q v h _
    cases h
  | cons w ws ih =>
    intro f q v h hnd
    rw [List.map_cons, List.nodup_cons] at hnd
    rw [List.foldl_cons]
    rcases List.mem_cons.mp h with heq | hmem
    · have hq : w.1 = q := by rw [← heq]
      rw [getKey_foldl_setKey_not_mem ws _ q (hq ▸ hnd.1), hq,
          ← show w.2 = v from by rw [← heq], getKey_setKey_same]
    · exact ih _ _ _ hmem hnd.2

theorem extractAll_files (fs : FileSys) (entries : List (String × String))
    (dest : String) :
    (extractAll fs entries dest).files =
      (entries.map (fun m => (realpath (joinPath dest m.1), m.2))).foldl
        (fun acc w => setKey acc w.1 w.2) fs.files := by
  unfold extractAll
  rw [List.foldl_map]

theorem dirEntriesRel_writeback (files : List (String × String)) (dir : String)
    (hwrite : ∀ p v, (p, v) ∈ files → strStartsWith p (dir ++ "/") = true →
      realpath (joinPath dir ("./" ++ strDrop p (dir.length + 1))) = p) :
    (dirEntriesRel files dir).map (fun m => (realpath (joinPath dir m.1), m.2))
      = files.filter (fun kv => strStartsWith kv.1 (dir ++ "/")) := by
  induction files with
  | nil => rfl
  | cons kv rest ih =>
    have ihr := ih (fun p v hp => hwrite p v (List.mem_cons_of_mem _ hp))
    unfold dirEntriesRel at ihr ⊢
    rw [List.filterMap_cons, List.filter_cons]
    by_cases hp : strStartsWith kv.1 (dir ++ "/") = true
    · rw [if_pos hp, hp, List.map_cons, ihr,
          hwrite kv.1 kv.2 (List.mem_cons_self _ _) hp]
      simp
    · rw [if_neg hp, ihr]
      have hp2 : strStartsWith kv.1 (dir ++ "/") = false := by
        cases hb : strStartsWith kv.1 (dir ++ "/") with
        | false => rfl
        | true => exact absurd hb hp
      rw [hp2]
      simp

/-! ## C7 -/

/-- C7: saving a checkpoint of a surface directory, then mutating a file
inside the live directory, then restoring from the saved checkpoint leaves
the file with its original saved content again.  The path-shaped
hypotheses say that the surface lives at an absolute directory `dir`, that
`q` is a file inside it, that every archived member resolves back to its
own original path inside the target (which also satisfies the extraction
guard), that the store has no colliding blob under the archive's hash, and
that the archive's hex digest parses back out of its ref string. -/
theorem checkpoint_save_restore_roundtrip
    (sha : Bytes → String) (mgr : CheckpointManager) (fs0 : FileSys)
    (store0 : ArtifactStore) (ck0 : List (String × Json))
    (now label sname dir q c newC : String) (rt : Json)
    (hdir : dirExists fs0 dir = true)
    (hq : getKey fs0.files q = some c)
    (hpref : strStartsWith q (dir ++ "/") = true)
    (hnodup : (fs0.files.map Prod.fst).Nodup)
    (hsafe : (dirEntriesRel fs0.files dir).all (fun m => memberSafe dir m.1) = true)
    (hwrite : ∀ p v, (p, v) ∈ fs0.files → strStartsWith p (dir ++ "/") = true →
        realpath (joinPath dir ("./" ++ strDrop p (dir.length + 1))) = p)
    (hlast : lastSlashComp
        (refFor (afterColon (sha (Bytes.tarGz (dirEntriesRel fs0.files dir)))))
      = afterColon (sha (Bytes.tarGz (dirEntriesRel fs0.files dir))))
    (hcol : getKey store0.blobs (path_for_hash store0
          (afterColon (sha (Bytes.tarGz (dirEntriesRel fs0.files dir))))) = none
        ∨ getKey store0.blobs (path_for_hash store0
          (afterColon (sha (Bytes.tarGz (dirEntriesRel fs0.files dir)))))
          = some (Bytes.tarGz (dirEntriesRel fs0.files dir))) :
    ∃ (w1 w2 : World) (ckpt : Json),
      cpSave sha mgr ⟨fs0, store0, ck0⟩ now label [(sname, dir)] rt
        = Except.ok (w1, ckpt) ∧
      cpRestore { w1 with fs := { w1.fs with files := setKey w1.fs.files q newC } }
          (mgr.checkpoints_dir ++ "/checkpoint_" ++ label ++ ".json")
        = Except.ok (w2, ckpt) ∧
      getKey w2.fs.files q = some c := by
  have hroot : (put_file sha store0 "/tmp/ckpt.tar.gz"
      (Bytes.tarGz (dirEntriesRel fs0.files dir))).1.root = store0.root := by
    simp only [put_file]
    split <;> rfl
  have hpfref : (put_file sha store0 "/tmp/ckpt.tar.gz"
      (Bytes.tarGz (dirEntriesRel fs0.files dir))).2.1
      = refFor (afterColon (sha (Bytes.tarGz (dirEntriesRel fs0.files dir)))) := by
    simp only [put_file]
    split <;> rfl
  have hpfblob : getKey (put_file sha store0 "/tmp/ckpt.tar.gz"
        (Bytes.tarGz (dirEntriesRel fs0.files dir))).1.blobs
        (path_for_hash store0
          (afterColon (sha (Bytes.tarGz (dirEntriesRel fs0.files dir)))))
      = some (Bytes.tarGz (dirEntriesRel fs0.files dir)) := by
    simp only [put_file]
    rcases hcol with hc | hc
    · rw [hc]
      simp [getKey_setKey_same]
    · rw [hc]
      simp [hc]
  have hgb : get_bytes (put_file sha store0 "/tmp/ckpt.tar.gz"
        (Bytes.tarGz (dirEntriesRel fs0.files dir))).1
        (put_file sha store0 "/tmp/ckpt.tar.gz"
          (Bytes.tarGz (dirEntriesRel fs0.files dir))).2.1
      = Except.ok (Bytes.tarGz (dirEntriesRel fs0.files dir)) := by
    rw [hpfref]
    unfold get_bytes
    have hsw : strStartsWith
        (refFor (afterColon (sha (Bytes.tarGz (dirEntriesRel fs0.files dir)))))
        "artifact://sha256/" = true :=
      strStartsWith_append "artifact://sha256/" _
    rw [hsw, hlast]
    have hp : path_for_hash (put_file sha store0 "/tmp/ckpt.tar.gz"
          (Bytes.tarGz (dirEntriesRel fs0.files dir))).1
          (afterColon (sha (Bytes.tarGz (dirEntriesRel fs0.files dir))))
        = path_for_hash store0
          (afterColon (sha (Bytes.tarGz (dirEntriesRel fs0.files dir)))) := by
      unfold path_for_hash
      rw [hroot]
    simp only [Bool.not_true, Bool.false_eq_true, if_false, hp, hpfblob]
  have hcont : fs0.dirs.contains dir = true := hdir
  refine
    ⟨⟨fs0, (put_file sha store0 "/tmp/ckpt.tar.gz"
        (Bytes.tarGz (dirEntriesRel fs0.files dir))).1,
      setKey ck0 (mgr.checkpoints_dir ++ "/checkpoint_" ++ label ++ ".json")
        (Json.obj
          [("label", Json.str label), ("created_at", Json.str now),
           ("surfaces", Json.obj [(sname, Json.obj
              [("path", Json.str dir),
               ("artifact_ref", Json.str (put_file sha store0 "/tmp/ckpt.tar.gz"
                 (Bytes.tarGz (dirEntriesRel fs0.files dir))).2.1)])]),
           ("runtime_state", rt)])⟩,
     ⟨extractAll ⟨setKey fs0.files q newC, fs0.dirs⟩
        (dirEntriesRel fs0.files dir) dir,
      (put_file sha store0 "/tmp/ckpt.tar.gz"
        (Bytes.tarGz (dirEntriesRel fs0.files dir))).1,
      setKey ck0 (mgr.checkpoints_dir ++ "/checkpoint_" ++ label ++ ".json")
        (Json.obj
          [("label", Json.str label), ("created_at", Json.str now),
           ("surfaces", Json.obj [(sname, Json.obj
              [("path", Json.str dir),
               ("artifact_ref", Json.str (put_file sha store0 "/tmp/ckpt.tar.gz"
                 (Bytes.tarGz (dirEntriesRel fs0.files dir))).2.1)])]),
           ("runtime_state", rt)])⟩,
     Json.obj
       [("label", Json.str label), ("created_at", Json.str now),
        ("surfaces", Json.obj [(sname, Json.obj
           [("path", Json.str dir),
            ("artifact_ref", Json.str (put_file sha store0 "/tmp/ckpt.tar.gz"
              (Bytes.tarGz (dirEntriesRel fs0.files dir))).2.1)])]),
        ("runtime_state", rt)],
     ?_, ?_, ?_⟩
  · simp [cpSave, saveSurfaces, hdir]
  · have hmemd : dir ∈ fs0.dirs := by simpa using hcont
    simp [cpRestore, getKey_setKey_same, restoreSurfaces, jget, getKey, hgb,
          hcont, hmemd, safe_extract, hsafe]
  · rw [extractAll_files, dirEntriesRel_writeback fs0.files dir hwrite]
    exact getKey_foldl_setKey_mem _ _ _ _
      (List.mem_filter.mpr ⟨getKey_mem _ _ _ hq, hpref⟩)
      (hnodup.sublist (List.Sublist.map Prod.fst (List.filter_sublist _)))

/-- Witness for C7: a surface `/ws` holding `file.txt = "hello"`, saved,
mutated to `"changed"`, and restored from `checkpoint_step0.json`. -/
theorem checkpoint_save_restore_roundtrip_witness :
    dirExists ⟨[("/ws/file.txt", "hello")], ["/ws"]⟩ "/ws" = true ∧
    getKey [("/ws/file.txt", "hello")] "/ws/file.txt" = some "hello" ∧
    ∃ (w1 w2 : World) (ckpt : Json),
      cpSave shaLen ⟨"/ck"⟩ ⟨⟨[("/ws/file.txt", "hello")], ["/ws"]⟩, ⟨"/art", []⟩, []⟩
          "t" "step0" [("workspace", "/ws")] (Json.obj [])
        = Except.ok (w1, ckpt) ∧
      cpRestore
          { w1 with fs :=
              { w1.fs with files := setKey w1.fs.files "/ws/file.txt" "changed" } }
          "/ck/checkpoint_step0.json"
        = Except.ok (w2, ckpt) ∧
      getKey w2.fs.files "/ws/file.txt" = some "hello" := by
  refine ⟨rfl, rfl, ?_⟩
  exact checkpoint_save_restore_roundtrip shaLen ⟨"/ck"⟩
    ⟨[("/ws/file.txt", "hello")], ["/ws"]⟩ ⟨"/art", []⟩ []
    "t" "step0" "workspace" "/ws" "/ws/file.txt" "hello" "changed" (Json.obj [])
    rfl rfl rfl (by simp) rfl
    (fun p v hm _ => by
      simp at hm
      rw [hm.1]
      rfl)
    rfl (Or.inl rfl)

/-- C2 (the code at the failing input): restoring into target directory
`/work/data` an archive whose member is named `../data2/pwn` passes the
`startswith` guard (`/work/data2/pwn` begins with the string `/work/data`)
even though its resolved destination lies outside the target directory, and
the restore then writes `/work/data2/pwn` — a file outside the
destination.  The spec's own example member `../../etc/passwd` is rejected,
so the guard misses only resolved paths that extend the target path as a
string without extending it as a directory. -/
theorem safe_extract_prefix_escape_eval :
    memberSafe "/work/data" "../data2/pwn" = true ∧
    isWithinDir "/work/data" (realpath (joinPath "/work/data" "../data2/pwn")) = false ∧
    (∃ w2, cpRestore worldEscapeSample "/ck/checkpoint_x.json"
        = Except.ok (w2, ckptEscapeSample) ∧
      getKey w2.fs.files "/work/data2/pwn" = some "owned" ∧
      isWithinDir "/work/data" "/work/data2/pwn" = false) ∧
    cpRestore worldPasswdSample "/ck/checkpoint_x.json"
      = Except.error (PyErr.valueError "Unsafe path in tar archive") :=
  ⟨rfl, rfl, ⟨_, rfl, rfl, rfl⟩, rfl⟩

